import Mathlib

/-!
Verification of the background-removal post-processing pipeline of `app.py`
(FastAPI service around `rembg`): a shallow embedding of the pixel-level
helpers (`_refine_alpha`, `_premultiply_and_clean`, `_crop_with_margin`,
`_hash_bytes`), of the relevant Pillow primitives they call
(`ImageChops.multiply`, `Image.composite`, `getbbox`, `crop`,
`ImageOps.expand`, the rank/box filters), and of the `remove_bg` endpoint
orchestration, together with proofs and refutations of the specified
properties.

Machine integers are modelled as `Nat` (channel values stay below 256 in
every image the pipeline builds; where a C cast truncates we take `% 256`
explicitly).  The one floating-point computation that a claim depends on —
Python's `int(v * 1.4)` in the dark-edge boost, for `v < 64` — is embedded
exactly as IEEE-754 binary64 arithmetic on naturals (the literal `1.4` is
the double with mantissa 6305039478318694·2⁻⁵², the product is rounded to
53 bits with round-half-to-even, then truncated).
-/

namespace Rmbg

/-- An RGBA pixel: four channel values (8-bit, 0–255, in every image the
pipeline produces). -/
structure Rgba where
  r : Nat
  g : Nat
  b : Nat
  a : Nat
deriving DecidableEq

/-- A decoded RGBA image: width, height and a pixel grid, modelled as a
total function on coordinates (only `x < w`, `y < h` are meaningful). -/
structure Img where
  w : Nat
  h : Nat
  px : Nat → Nat → Rgba

/-- A single-channel (mode "L") image: an alpha mask, one 0–255 value per
pixel. -/
structure Mask where
  w : Nat
  h : Nat
  px : Nat → Nat → Nat

/-- The all-transparent-black image `Image.new("RGBA", (w, h), (0,0,0,0))`. -/
def zeroImg (w h : Nat) : Img :=
  ⟨w, h, fun _ _ => ⟨0, 0, 0, 0⟩⟩

/-- Pillow's `MULDIV255(a, b, tmp)` macro (`Imaging.h`):
`tmp = a*b + 128; result = ((tmp >> 8) + tmp) >> 8` — the fast
approximation of `a*b/255` used by `ImageChops.multiply` and by the
blending done in `Image.composite`/`paste`. -/
def muldiv255 (a b : Nat) : Nat :=
  ((a * b + 128) >>> 8 + (a * b + 128)) >>> 8

/-- For 8-bit inputs, `MULDIV255` is exactly round-to-nearest division by
255, i.e. `(a*b + 127) / 255` (255 is odd, so no ties occur). -/
theorem muldiv255_eq_round (a b : Nat) (ha : a ≤ 255) (hb : b ≤ 255) :
    muldiv255 a b = (a * b + 127) / 255 := by
  have h : a * b ≤ 65025 := Nat.mul_le_mul ha hb
  unfold muldiv255
  simp only [Nat.shiftRight_eq_div_pow]
  generalize hx : a * b = x at h ⊢
  omega

/-- `muldiv255 0 b = 0` for every `b`. -/
theorem muldiv255_zero_left (b : Nat) : muldiv255 0 b = 0 := by
  unfold muldiv255
  simp

/-- `muldiv255 a 255 = a` for 8-bit `a` (full weight keeps the value). -/
theorem muldiv255_self (a : Nat) (ha : a ≤ 255) : muldiv255 a 255 = a := by
  rw [muldiv255_eq_round a 255 ha (le_refl 255)]
  omega

/-- `muldiv255 a b ≤ a` for 8-bit inputs (premultiplication never
brightens). -/
theorem muldiv255_le_left (a b : Nat) (ha : a ≤ 255) (hb : b ≤ 255) :
    muldiv255 a b ≤ a := by
  rw [muldiv255_eq_round a b ha hb]
  have h : a * b ≤ a * 255 := Nat.mul_le_mul_left a hb
  omega

/-- Strict-decrease characterisation: for 8-bit `a`, `b`, the product
`muldiv255 a b` is strictly below `a` exactly when `a * (255 - b) ≥ 128`. -/
theorem muldiv255_lt_iff (a b : Nat) (ha : a ≤ 255) (hb : b ≤ 255) :
    muldiv255 a b < a ↔ 128 ≤ a * (255 - b) := by
  rw [muldiv255_eq_round a b ha hb]
  have h : a * b + a * (255 - b) = a * 255 := by
    rw [← Nat.mul_add]
    congr 1
    omega
  constructor
  · intro hlt
    by_contra hc
    push_neg at hc
    omega
  · intro h128
    omega

/-- `muldiv255` stays in the 8-bit range for 8-bit inputs. -/
theorem muldiv255_le_255 (a b : Nat) (ha : a ≤ 255) (hb : b ≤ 255) :
    muldiv255 a b ≤ 255 := by
  rw [muldiv255_eq_round a b ha hb]
  have h : a * b ≤ 65025 := Nat.mul_le_mul ha hb
  omega

/-- An image is 8-bit when every channel of every pixel is at most 255.
Every image the pipeline handles satisfies this. -/
def Img.Valid8 (img : Img) : Prop :=
  ∀ x y, (img.px x y).r ≤ 255 ∧ (img.px x y).g ≤ 255 ∧
    (img.px x y).b ≤ 255 ∧ (img.px x y).a ≤ 255

/-- Pillow's `BLEND(mask, in1, in2, tmp)` macro (`Imaging.h`), the per-band
formula used when pasting with an "L" mask:
`MULDIV255(in1, 255 - mask) + MULDIV255(in2, mask)` where `in1` is the
existing (background) value and `in2` the pasted one. -/
def blend (m in1 in2 : Nat) : Nat :=
  muldiv255 in1 (255 - m) + muldiv255 in2 m

/-- `Image.composite(image1, image2, mask)` = `image2.copy()` followed by
`paste(image1, None, mask)`: every band of every pixel — colour bands and
the alpha band alike — is blended between `image2` (background) and
`image1` (foreground) with the mask value as the weight. -/
def pilComposite (image1 image2 : Img) (mask : Mask) : Img :=
  ⟨image2.w, image2.h, fun x y =>
    ⟨blend (mask.px x y) (image2.px x y).r (image1.px x y).r,
     blend (mask.px x y) (image2.px x y).g (image1.px x y).g,
     blend (mask.px x y) (image2.px x y).b (image1.px x y).b,
     blend (mask.px x y) (image2.px x y).a (image1.px x y).a⟩⟩

/-- `_premultiply_and_clean` (app.py lines 79–85): split the RGBA bands,
multiply each colour band by the alpha band with `ImageChops.multiply`
(which is `MULDIV255` per pixel), and merge with the alpha band unchanged. -/
def premultiplyAndClean (img : Img) : Img :=
  ⟨img.w, img.h, fun x y =>
    ⟨muldiv255 (img.px x y).r (img.px x y).a,
     muldiv255 (img.px x y).g (img.px x y).a,
     muldiv255 (img.px x y).b (img.px x y).a,
     (img.px x y).a⟩⟩

/-- `img.split()[-1]`: the alpha band of an RGBA image as an "L" image. -/
def Img.alphaBand (img : Img) : Mask :=
  ⟨img.w, img.h, fun x y => (img.px x y).a⟩

/-- Column `x` of the mask contains a nonzero pixel (rows `0..h-1`). -/
def Mask.colHit (m : Mask) (x : Nat) : Bool :=
  (List.range m.h).any (fun y => m.px x y != 0)

/-- Row `y` of the mask contains a nonzero pixel (columns `0..w-1`). -/
def Mask.rowHit (m : Mask) (y : Nat) : Bool :=
  (List.range m.w).any (fun x => m.px x y != 0)

/-- PIL `getbbox()` on an "L" image: the minimal `(left, upper, right,
lower)` box containing every nonzero pixel, with `right`/`lower`
exclusive; `none` when the image is entirely zero. -/
def Mask.getbbox (m : Mask) : Option (Nat × Nat × Nat × Nat) :=
  match ((List.range m.w).filter m.colHit).min?,
        ((List.range m.h).filter m.rowHit).min?,
        ((List.range m.w).filter m.colHit).max?,
        ((List.range m.h).filter m.rowHit).max? with
  | some l, some t, some r, some b => some (l, t, r + 1, b + 1)
  | _, _, _, _ => none

/-- `img.crop((l, t, r, b))`: the `(r-l) × (b-t)` sub-image whose pixel
`(x, y)` is the source pixel `(x+l, y+t)`; regions outside the source are
transparent black (PIL zero-fills when a crop box exceeds the image). -/
def Img.crop (img : Img) (l t r b : Nat) : Img :=
  ⟨r - l, b - t, fun x y =>
    if x + l < img.w ∧ y + t < img.h then img.px (x + l) (y + t)
    else ⟨0, 0, 0, 0⟩⟩

/-- `ImageOps.expand(img, border, fill)`: add a border of width `border`
filled with `fill` on every side. -/
def imageOpsExpand (img : Img) (border : Nat) (fill : Rgba) : Img :=
  ⟨img.w + 2 * border, img.h + 2 * border, fun x y =>
    if border ≤ x ∧ x < border + img.w ∧ border ≤ y ∧ y < border + img.h
    then img.px (x - border) (y - border) else fill⟩

/-- `_crop_with_margin` (app.py lines 87–98): take the bounding box of the
alpha band (unchanged image if it is empty), grow it by `margin` clamped
to the image bounds, crop to it, then pad the crop back out by `margin`
transparent pixels on every side with `ImageOps.expand`. -/
def cropWithMargin (img : Img) (margin : Nat) : Img :=
  match img.alphaBand.getbbox with
  | none => img
  | some (l, t, r, b) =>
    imageOpsExpand
      (img.crop (l - margin) (t - margin) (min (r + margin) img.w)
        (min (b + margin) img.h))
      margin ⟨0, 0, 0, 0⟩

/-- A constant-pixel image is 8-bit as soon as its one pixel is. -/
theorem valid8_const (p : Rgba) (hp : p.r ≤ 255 ∧ p.g ≤ 255 ∧ p.b ≤ 255 ∧
    p.a ≤ 255) (w h : Nat) : (Img.mk w h (fun _ _ => p)).Valid8 :=
  fun _ _ => hp

/-- A constant mask is 8-bit as soon as its one value is. -/
theorem maskConst_le (v : Nat) (hv : v ≤ 255) (w h : Nat) :
    ∀ x y, (Mask.mk w h (fun _ _ => v)).px x y ≤ 255 :=
  fun _ _ => hv

/-- Claim C7 (amended): for every 8-bit RGBA image, despill
(`_premultiply_and_clean`) returns an image of the same dimensions in
which each colour channel is the original value multiplied by alpha and
divided by 255 with round-to-nearest — `C' = (C*A + 127) / 255`, not the
floored `C*A/255` — and the alpha channel is unchanged. -/
theorem despill_postcondition (img : Img) (h8 : img.Valid8) (x y : Nat) :
    (premultiplyAndClean img).w = img.w ∧
    (premultiplyAndClean img).h = img.h ∧
    (premultiplyAndClean img).px x y =
      ⟨((img.px x y).r * (img.px x y).a + 127) / 255,
       ((img.px x y).g * (img.px x y).a + 127) / 255,
       ((img.px x y).b * (img.px x y).a + 127) / 255,
       (img.px x y).a⟩ := by
  obtain ⟨hr, hg, hb, ha⟩ := h8 x y
  refine ⟨rfl, rfl, ?_⟩
  simp only [premultiplyAndClean, muldiv255_eq_round _ _ hr ha,
    muldiv255_eq_round _ _ hg ha, muldiv255_eq_round _ _ hb ha]

/-- Witness for C7: despill of the 1×1 image (10, 20, 30, 128) yields
(5, 10, 15, 128) — each channel rounded to nearest —, obtained by applying
`despill_postcondition` at that image. -/
theorem despill_postcondition_witness :
    (premultiplyAndClean ⟨1, 1, fun _ _ => ⟨10, 20, 30, 128⟩⟩).px 0 0 =
      ⟨5, 10, 15, 128⟩ := by
  have h := despill_postcondition ⟨1, 1, fun _ _ => ⟨10, 20, 30, 128⟩⟩
    (valid8_const _ (by decide) 1 1) 0 0
  rw [h.2.2]
  decide

/-- Counterexample for C7 as stated: at R = 1, A = 128 the code produces
R' = 1 (`MULDIV255` rounds 128/255 up), while the claimed formula
R*A/255 gives 0. -/
theorem despill_floor_counterexample :
    ((premultiplyAndClean ⟨1, 1, fun _ _ => ⟨1, 0, 0, 128⟩⟩).px 0 0).r = 1 ∧
    1 * 128 / 255 = 0 := by
  decide

/-- Claim C8 (amended): applying despill twice never brightens any colour
channel relative to a single application and leaves alpha alone; at pixels
with alpha 0 or 255 the two results are identical; and at a
semi-transparent pixel (0 < A < 255) the second application strictly
darkens a channel exactly when the once-despilled value `c` satisfies
`c * (255 - A) ≥ 128` — so the two results can coincide even at a
semi-transparent pixel with a nonzero channel (e.g. C = 1, A = 128). -/
theorem despill_twice (img : Img) (h8 : img.Valid8) (x y : Nat) :
    (((premultiplyAndClean (premultiplyAndClean img)).px x y).r ≤
        ((premultiplyAndClean img).px x y).r ∧
      ((premultiplyAndClean (premultiplyAndClean img)).px x y).g ≤
        ((premultiplyAndClean img).px x y).g ∧
      ((premultiplyAndClean (premultiplyAndClean img)).px x y).b ≤
        ((premultiplyAndClean img).px x y).b ∧
      ((premultiplyAndClean (premultiplyAndClean img)).px x y).a =
        ((premultiplyAndClean img).px x y).a) ∧
    ((img.px x y).a = 0 ∨ (img.px x y).a = 255 →
      (premultiplyAndClean (premultiplyAndClean img)).px x y =
        (premultiplyAndClean img).px x y) ∧
    (0 < (img.px x y).a → (img.px x y).a < 255 →
      (((premultiplyAndClean (premultiplyAndClean img)).px x y).r <
          ((premultiplyAndClean img).px x y).r ↔
        128 ≤ ((premultiplyAndClean img).px x y).r *
          (255 - (img.px x y).a))) := by
  obtain ⟨hr, hg, hb, ha⟩ := h8 x y
  have h1r : muldiv255 (img.px x y).r (img.px x y).a ≤ 255 :=
    muldiv255_le_255 _ _ hr ha
  have h1g : muldiv255 (img.px x y).g (img.px x y).a ≤ 255 :=
    muldiv255_le_255 _ _ hg ha
  have h1b : muldiv255 (img.px x y).b (img.px x y).a ≤ 255 :=
    muldiv255_le_255 _ _ hb ha
  refine ⟨⟨?_, ?_, ?_, rfl⟩, ?_, ?_⟩
  · exact muldiv255_le_left _ _ h1r ha
  · exact muldiv255_le_left _ _ h1g ha
  · exact muldiv255_le_left _ _ h1b ha
  · intro hcase
    simp only [premultiplyAndClean]
    rcases hcase with h0 | h255
    · rw [h0]
      have hz : ∀ c : Nat, c ≤ 255 → muldiv255 c 0 = 0 := by
        intro c hc
        rw [muldiv255_eq_round c 0 hc (by omega)]
        simp
      simp only [hz _ hr, hz _ hg, hz _ hb, hz 0 (by omega)]
    · rw [h255]
      simp only [muldiv255_self _ hr, muldiv255_self _ hg,
        muldiv255_self _ hb]
  · intro h0 h255
    exact muldiv255_lt_iff _ _ h1r ha

/-- Witness for C8: at the 1×1 image (200, 0, 0, 128) a second despill
strictly darkens the red channel (100 → 50... the once value is 100 and
100*(255-128) = 12700 ≥ 128), obtained from `despill_twice`. -/
theorem despill_twice_witness :
    ((premultiplyAndClean (premultiplyAndClean
        ⟨1, 1, fun _ _ => ⟨200, 0, 0, 128⟩⟩)).px 0 0).r <
      ((premultiplyAndClean ⟨1, 1, fun _ _ => ⟨200, 0, 0, 128⟩⟩).px 0 0).r :=
  ((despill_twice ⟨1, 1, fun _ _ => ⟨200, 0, 0, 128⟩⟩
      (valid8_const _ (by decide) 1 1) 0 0).2.2
    (by decide) (by decide)).mpr (by decide)

/-- Counterexample for C8 as stated: the 1×1 image (1, 0, 0, 128) has a
semi-transparent pixel (alpha 128) with a nonzero colour channel, yet
despill applied twice equals despill applied once — the results do not
differ at any pixel. -/
theorem despill_twice_counterexample :
    premultiplyAndClean (premultiplyAndClean ⟨1, 1, fun _ _ => ⟨1, 0, 0, 128⟩⟩) =
      premultiplyAndClean ⟨1, 1, fun _ _ => ⟨1, 0, 0, 128⟩⟩ ∧
    0 < 128 ∧ 128 < 255 ∧ (1 : Nat) ≠ 0 := by
  refine ⟨?_, by decide, by decide, by decide⟩
  simp only [premultiplyAndClean]
  congr 1

/-- Claim C3 (amended): compositing the original over the freshly created
transparent background (`Image.new` zeros + `Image.composite`) blends
EVERY band toward zero by the mask weight: each of R, G, B and also A of
the output is `(original_band * mask + 127) / 255` — the original RGB is
scaled, not kept, and the output alpha is the original alpha scaled by
the mask, not the mask itself. -/
theorem composite_transparent (orig : Img) (mask : Mask) (h8 : orig.Valid8)
    (hm : ∀ x y, mask.px x y ≤ 255) (x y : Nat) :
    (pilComposite orig (zeroImg orig.w orig.h) mask).w = orig.w ∧
    (pilComposite orig (zeroImg orig.w orig.h) mask).h = orig.h ∧
    (pilComposite orig (zeroImg orig.w orig.h) mask).px x y =
      ⟨((orig.px x y).r * mask.px x y + 127) / 255,
       ((orig.px x y).g * mask.px x y + 127) / 255,
       ((orig.px x y).b * mask.px x y + 127) / 255,
       ((orig.px x y).a * mask.px x y + 127) / 255⟩ := by
  obtain ⟨hr, hg, hb, ha⟩ := h8 x y
  have hmxy := hm x y
  refine ⟨rfl, rfl, ?_⟩
  simp only [pilComposite, zeroImg, blend, muldiv255_zero_left,
    Nat.zero_add, muldiv255_eq_round _ _ hr hmxy,
    muldiv255_eq_round _ _ hg hmxy, muldiv255_eq_round _ _ hb hmxy,
    muldiv255_eq_round _ _ ha hmxy]

/-- Witness for C3: the 1×1 original (100, 0, 0, 200) composited with mask
value 128 over the transparent background yields (50, 0, 0, 100), by
`composite_transparent` at that input. -/
theorem composite_transparent_witness :
    (pilComposite ⟨1, 1, fun _ _ => ⟨100, 0, 0, 200⟩⟩ (zeroImg 1 1)
      ⟨1, 1, fun _ _ => 128⟩).px 0 0 = ⟨50, 0, 0, 100⟩ := by
  have h := composite_transparent ⟨1, 1, fun _ _ => ⟨100, 0, 0, 200⟩⟩
    ⟨1, 1, fun _ _ => 128⟩ (valid8_const _ (by decide) 1 1)
    (maskConst_le 128 (by decide) 1 1) 0 0
  rw [h.2.2]
  decide

/-- Counterexample for C3 as stated: with original pixel (100, 0, 0, 200)
and mask 128, the output red channel is 50, not the claimed unchanged
100, and the output alpha is 100, not the claimed mask value 128. -/
theorem composite_transparent_counterexample :
    ((pilComposite ⟨1, 1, fun _ _ => ⟨100, 0, 0, 200⟩⟩ (zeroImg 1 1)
        ⟨1, 1, fun _ _ => 128⟩).px 0 0).r = 50 ∧ (50 : Nat) ≠ 100 ∧
    ((pilComposite ⟨1, 1, fun _ _ => ⟨100, 0, 0, 200⟩⟩ (zeroImg 1 1)
        ⟨1, 1, fun _ _ => 128⟩).px 0 0).a = 100 ∧ (100 : Nat) ≠ 128 := by
  refine ⟨by decide, by decide, by decide, by decide⟩

/-- Clamp an integer coordinate into `[0, n-1]` (edge replication, the
effect of Pillow's `ImagingExpand` border used by the rank filters and of
the box-blur edge handling). -/
def clampIdx (n : Nat) (i : Int) : Nat :=
  (max 0 (min i ((n : Int) - 1))).toNat

/-- The values in the `(2k+1) × (2k+1)` window centred on `(x, y)`, with
edge replication. -/
def windowVals (m : Mask) (k : Nat) (x y : Nat) : List Nat :=
  ((List.range (2 * k + 1)).map (fun dy =>
    (List.range (2 * k + 1)).map (fun dx =>
      m.px (clampIdx m.w ((x : Int) + dx - k))
        (clampIdx m.h ((y : Int) + dy - k))))).flatten

/-- `ImageFilter.MinFilter(2k+1)`: Pillow expands the image by `k`
replicated edge pixels and takes the window minimum (rank 0). -/
def minFilter (m : Mask) (k : Nat) : Mask :=
  ⟨m.w, m.h, fun x y =>
    (windowVals m k x y).foldl min (m.px (clampIdx m.w x) (clampIdx m.h y))⟩

/-- `ImageFilter.MaxFilter(2k+1)`: the window maximum (highest rank). -/
def maxFilter (m : Mask) (k : Nat) : Mask :=
  ⟨m.w, m.h, fun x y => (windowVals m k x y).foldl max 0⟩

/-- The constants Pillow's C box blur derives from its floating-point
radius: the integer window radius, the 24-bit fixed-point weight `ww` of
each full window pixel and the weight `fw` of the two fractional edge
pixels.  They are carried as data because the derivation (`_gaussian_blur_radius`
and the weight division in `BoxBlur.c`) is float arithmetic; every theorem
below holds for all values. -/
structure BlurKernel where
  radiusInt : Nat
  ww : Nat
  fw : Nat

/-- One line of Pillow's box blur (`BoxBlur.c`): the weighted window sum
`ww * Σ window + fw * (two pixels just outside the window)`, plus the
rounding constant `1 << 23`, shifted down by 24 bits and cast to UINT8
(`% 256`); out-of-line indices are clamped to the edge. -/
def lineBoxBlur (k : BlurKernel) (n : Nat) (f : Nat → Nat) (x : Nat) : Nat :=
  ((k.ww * ((List.range (2 * k.radiusInt + 1)).map
      (fun j => f (clampIdx n ((x : Int) + j - k.radiusInt)))).sum +
    k.fw * (f (clampIdx n ((x : Int) - k.radiusInt - 1)) +
      f (clampIdx n ((x : Int) + k.radiusInt + 1))) +
    2 ^ 23) >>> 24) % 256

/-- A horizontal box-blur pass. -/
def blurH (k : BlurKernel) (m : Mask) : Mask :=
  ⟨m.w, m.h, fun x y => lineBoxBlur k m.w (fun i => m.px i y) x⟩

/-- A vertical box-blur pass. -/
def blurV (k : BlurKernel) (m : Mask) : Mask :=
  ⟨m.w, m.h, fun x y => lineBoxBlur k m.h (fun j => m.px x j) y⟩

/-- `ImageFilter.GaussianBlur(radius)`: Pillow approximates the Gaussian
with three box-blur passes in each direction (`passes = 3`). -/
def gaussianBlur (k : BlurKernel) (m : Mask) : Mask :=
  blurV k (blurV k (blurV k (blurH k (blurH k (blurH k m)))))

/-- Number of binary digits of a natural, by fuelled structural recursion
so that it reduces inside `decide`; correct for `n < 2^70`, which covers
every product formed below. -/
def numBitsAux : Nat → Nat → Nat
  | 0, _ => 0
  | fuel + 1, n => if n = 0 then 0 else numBitsAux fuel (n / 2) + 1

/-- Number of binary digits of a natural below `2^70` (0 for 0). -/
def numBits (n : Nat) : Nat :=
  numBitsAux 70 n

/-- The mantissa, scaled by `2^52`, of the IEEE-754 binary64 value of the
Python literal `1.4` (which is slightly below 7/5). -/
def mant14 : Nat := 6305039478318694

/-- Python's `int(v * 1.4)` for a natural `v`, computed exactly: the
product with the binary64 value of `1.4` is formed exactly, rounded to 53
significant bits with round-half-to-even, and truncated toward zero.  (No
overflow or subnormal can occur in the range used here.) -/
def pyTruncMul14 (v : Nat) : Nat :=
  let p := v * mant14
  if p = 0 then 0
  else
    let k := numBits p - 53
    let q := p / 2 ^ k
    let r := p % 2 ^ k
    let q2 := if 2 ^ k < 2 * r then q + 1
      else if 2 * r < 2 ^ k then q else q + q % 2
    q2 * 2 ^ k / 2 ^ 52

/-- The dark-edge boost loop body (app.py lines 70–76): every value below
64 becomes `min(255, int(v * 1.4) + 6)`; other values are untouched. -/
def boostDark (v : Nat) : Nat :=
  if v < 64 then min 255 (pyTruncMul14 v + 6) else v

/-- Stage 1 of `_refine_alpha`: `MinFilter(contract*2+1)` when
`contract > 0`, else a no-op. -/
def contractStage (m : Mask) (contract : Nat) : Mask :=
  if 0 < contract then minFilter m contract else m

/-- Stage 2 of `_refine_alpha`: `MaxFilter(expand*2+1)` when `expand > 0`,
else a no-op. -/
def expandStage (m : Mask) (expand : Nat) : Mask :=
  if 0 < expand then maxFilter m expand else m

/-- Stage 3 of `_refine_alpha`: `GaussianBlur(small_blur)` when
`small_blur > 0` (`some k` carries the box-blur constants Pillow derives
from the radius; `none` models `small_blur ≤ 0`). -/
def blurStage (m : Mask) : Option BlurKernel → Mask
  | some k => gaussianBlur k m
  | none => m

/-- Stage 4 of `_refine_alpha`: the in-place dark-edge boost loop. -/
def boostStage (m : Mask) : Mask :=
  ⟨m.w, m.h, fun x y => boostDark (m.px x y)⟩

/-- `_refine_alpha` (app.py lines 61–77): contract, expand, blur, then the
optional dark-edge boost, in that order. -/
def refineAlpha (mask : Mask) (contract expand : Nat)
    (blur : Option BlurKernel) (boostDarkEdges : Bool) : Mask :=
  if boostDarkEdges then
    boostStage (blurStage (expandStage (contractStage mask contract) expand) blur)
  else blurStage (expandStage (contractStage mask contract) expand) blur

/-- An all-zero mask stays all-zero through `MinFilter`. -/
theorem minFilter_zero (m : Mask) (k x y : Nat) (hz : ∀ u v, m.px u v = 0) :
    (minFilter m k).px x y = 0 := by
  simp only [minFilter]
  have h : ∀ (l : List Nat) (i : Nat), i = 0 → (∀ v ∈ l, v = 0) →
      l.foldl min i = 0 := by
    intro l
    induction l with
    | nil => intro i hi _; simpa using hi
    | cons a t ih =>
      intro i hi hall
      simp only [List.foldl_cons]
      exact ih _ (by rw [hi, hall a (by simp)]; simp) fun v hv =>
        hall v (by simp [hv])
  refine h _ _ (hz _ _) ?_
  intro v hv
  simp only [windowVals, List.mem_flatten, List.mem_map] at hv
  obtain ⟨l, ⟨dy, _, rfl⟩, hvl⟩ := hv
  obtain ⟨dx, _, rfl⟩ := List.mem_map.mp hvl
  exact hz _ _

/-- An all-zero mask stays all-zero through `MaxFilter`. -/
theorem maxFilter_zero (m : Mask) (k x y : Nat) (hz : ∀ u v, m.px u v = 0) :
    (maxFilter m k).px x y = 0 := by
  simp only [maxFilter]
  have h : ∀ (l : List Nat), (∀ v ∈ l, v = 0) → l.foldl max 0 = 0 := by
    intro l
    induction l with
    | nil => intro; rfl
    | cons a t ih =>
      intro hall
      simp only [List.foldl_cons, hall a (by simp), Nat.max_self]
      exact ih fun v hv => hall v (by simp [hv])
  refine h _ ?_
  intro v hv
  simp only [windowVals, List.mem_flatten, List.mem_map] at hv
  obtain ⟨l, ⟨dy, _, rfl⟩, hvl⟩ := hv
  obtain ⟨dx, _, rfl⟩ := List.mem_map.mp hvl
  exact hz _ _

/-- A zero line blurs to zero, for every box-blur constant choice. -/
theorem lineBoxBlur_zero (k : BlurKernel) (n : Nat) (f : Nat → Nat)
    (x : Nat) (hf : ∀ i, f i = 0) : lineBoxBlur k n f x = 0 := by
  simp only [lineBoxBlur]
  have hsum : ((List.range (2 * k.radiusInt + 1)).map
      (fun j => f (clampIdx n ((x : Int) + j - k.radiusInt)))).sum = 0 := by
    apply List.sum_eq_zero
    intro v hv
    obtain ⟨j, _, rfl⟩ := List.mem_map.mp hv
    exact hf _
  rw [hsum, hf, hf]
  simp [Nat.shiftRight_eq_div_pow]

/-- An all-zero mask stays all-zero through the three-pass Gaussian blur,
for every kernel. -/
theorem gaussianBlur_zero (k : BlurKernel) (m : Mask)
    (hz : ∀ u v, m.px u v = 0) : ∀ x y, (gaussianBlur k m).px x y = 0 := by
  have hH : ∀ (m2 : Mask), (∀ u v, m2.px u v = 0) →
      ∀ x y, (blurH k m2).px x y = 0 := by
    intro m2 h2 x y
    show lineBoxBlur k m2.w (fun i => m2.px i y) x = 0
    exact lineBoxBlur_zero k m2.w _ x fun i => h2 i y
  have hV : ∀ (m2 : Mask), (∀ u v, m2.px u v = 0) →
      ∀ x y, (blurV k m2).px x y = 0 := by
    intro m2 h2 x y
    show lineBoxBlur k m2.h (fun j => m2.px x j) y = 0
    exact lineBoxBlur_zero k m2.h _ y fun j => h2 x j
  intro x y
  exact hV _ (hV _ (hV _ (hH _ (hH _ (hH _ hz))))) x y

/-- Claim C4 (amended): an all-zero mask is preserved by the contract,
expand and blur stages for every parameter choice, but the dark-edge
boost then lifts every pixel from 0 to `min(255, int(0*1.4)+6) = 6`: the
refine result is all-zero exactly when the boost is disabled, and the
constant 6 mask when it is enabled. -/
theorem refine_all_zero (m : Mask) (contract expand : Nat)
    (blur : Option BlurKernel) (boost : Bool) (hz : ∀ u v, m.px u v = 0)
    (x y : Nat) :
    (refineAlpha m contract expand blur boost).px x y =
      if boost then 6 else 0 := by
  have h1 : ∀ u v, (contractStage m contract).px u v = 0 := by
    intro u v
    unfold contractStage
    by_cases hc : 0 < contract
    · rw [if_pos hc]
      exact minFilter_zero m contract u v hz
    · rw [if_neg hc]
      exact hz u v
  have h2 : ∀ u v, (expandStage (contractStage m contract) expand).px u v
      = 0 := by
    intro u v
    unfold expandStage
    by_cases he : 0 < expand
    · rw [if_pos he]
      exact maxFilter_zero _ expand u v h1
    · rw [if_neg he]
      exact h1 u v
  have h3 : ∀ u v,
      (blurStage (expandStage (contractStage m contract) expand) blur).px u v
      = 0 := by
    intro u v
    cases blur with
    | none => exact h2 u v
    | some k => exact gaussianBlur_zero k _ h2 u v
  cases boost with
  | false =>
    simp only [refineAlpha, Bool.false_eq_true, if_false]
    exact h3 x y
  | true =>
    simp only [refineAlpha, if_true, boostStage]
    rw [h3 x y]
    rfl

/-- Witness for C4: the 2×2 zero mask refined with contract 1, expand 2,
an arbitrary blur kernel and the boost enabled evaluates to 6 at (0, 0),
by `refine_all_zero`. -/
theorem refine_all_zero_witness :
    (refineAlpha ⟨2, 2, fun _ _ => 0⟩ 1 2 (some ⟨1, 5592405, 1⟩) true).px 0 0
      = 6 :=
  refine_all_zero ⟨2, 2, fun _ _ => 0⟩ 1 2 (some ⟨1, 5592405, 1⟩) true
    (fun _ _ => rfl) 0 0

/-- Counterexample for C4 as stated: with the boost enabled (a legal
parameter combination) the refine of an all-zero 1×1 mask yields 6, not
0, at its only pixel. -/
theorem refine_all_zero_counterexample :
    (refineAlpha ⟨1, 1, fun _ _ => 0⟩ 1 2 none true).px 0 0 = 6 ∧
    (6 : Nat) ≠ 0 := by
  refine ⟨by decide, by decide⟩

/-- The exact value of `int(v * 1.4)` for `v < 64`: it equals
`⌊v * 7 / 5⌋` everywhere except `v = 45`, where the binary64 product
rounds to just below 63 and truncates to 62. -/
theorem pyTruncMul14_eq (v : Nat) (hv : v < 64) :
    pyTruncMul14 v = if v = 45 then 62 else v * 7 / 5 := by
  interval_cases v <;> decide

/-- Claim C9 (amended): with the boost enabled the refine result is the
boost function applied pointwise to the contract/expand/blur result, and
that function sends `v < 64` to `min(255, int(v*1.4) + 6)`, which is
`min(255, ⌊1.4 v⌋ + 6)` for every `v < 64` except `v = 45`, where
floating-point rounding gives 62 + 6 = 68 instead of 63 + 6 = 69; values
`≥ 64` are unchanged. -/
theorem refine_boost_stage (m : Mask) (contract expand : Nat)
    (blur : Option BlurKernel) (x y : Nat) :
    (refineAlpha m contract expand blur true).px x y =
      boostDark ((refineAlpha m contract expand blur false).px x y) ∧
    (∀ v, v < 64 → boostDark v =
      min 255 ((if v = 45 then 62 else v * 7 / 5) + 6)) ∧
    (∀ v, 64 ≤ v → boostDark v = v) := by
  refine ⟨rfl, ?_, ?_⟩
  · intro v hv
    simp only [boostDark, if_pos hv, pyTruncMul14_eq v hv]
  · intro v hv
    simp only [boostDark]
    rw [if_neg (by omega)]

/-- Counterexample for C9 as stated: a constant-45 mask (45 < 64), no
contract/expand/blur, boost enabled: the code produces
`min(255, int(45*1.4) + 6) = 68`, while the claimed formula
`min(255, ⌊45*1.4⌋ + 6)` is 69. -/
theorem refine_boost_counterexample :
    (refineAlpha ⟨1, 1, fun _ _ => 45⟩ 0 0 none true).px 0 0 = 68 ∧
    min 255 (45 * 14 / 10 + 6) = 69 ∧ (68 : Nat) ≠ 69 := by
  refine ⟨by decide, by decide, by decide⟩

/-- Witness for C9: at the constant-100 1×1 mask the boost stage of
`refine_boost_stage` is instantiated, with its pointwise formula checked
at the values 30 (below 64, not 45) and 100 (at least 64). -/
theorem refine_boost_stage_witness :
    (refineAlpha ⟨1, 1, fun _ _ => 100⟩ 1 2 none true).px 0 0 =
      boostDark ((refineAlpha ⟨1, 1, fun _ _ => 100⟩ 1 2 none false).px 0 0) ∧
    boostDark 30 = min 255 ((if 30 = 45 then 62 else 30 * 7 / 5) + 6) ∧
    boostDark 100 = 100 :=
  ⟨(refine_boost_stage ⟨1, 1, fun _ _ => 100⟩ 1 2 none 0 0).1,
   (refine_boost_stage ⟨1, 1, fun _ _ => 100⟩ 1 2 none 0 0).2.1 30 (by decide),
   (refine_boost_stage ⟨1, 1, fun _ _ => 100⟩ 1 2 none 0 0).2.2 100 (by decide)⟩

/-- The effective parameters that enter the cache key (the query
parameters of `remove_bg`, app.py lines 105–112, as validated by FastAPI:
`preset` and `size` are regex-restricted, `model` is an arbitrary optional
string, `crop_margin` an integer). -/
structure Params where
  preset : String
  size : String
  model : Option String
  refine : Bool
  apply_despill : Bool
  boost_dark_edges : Bool
  crop : Bool
  crop_margin : Nat
deriving DecidableEq

/-- Python's `str()` of a bool, as rendered inside an f-string. -/
def pyBool (b : Bool) : List Char :=
  if b then "True".data else "False".data

/-- Python's rendering of `Optional[str]` inside an f-string: `None`
renders as the four letters "None", a present string renders as itself. -/
def pyOptStr : Option String → List Char
  | none => "None".data
  | some s => s.data

/-- The decimal digits of `n`, least significant first, by fuelled
structural recursion (so it reduces inside `decide`); correct whenever
`fuel ≥ n`. -/
def natDigitsRevAux : Nat → Nat → List Nat
  | 0, _ => []
  | fuel + 1, n => if n = 0 then [] else n % 10 :: natDigitsRevAux fuel (n / 10)

/-- Python's decimal rendering `str(n)` of a natural number. -/
def natDecimal (n : Nat) : List Char :=
  if n = 0 then ['0'] else ((natDigitsRevAux n n).reverse).map Nat.digitChar

/-- The fuelled digit list agrees with `Nat.digits 10` once the fuel
covers the number. -/
theorem natDigitsRevAux_eq (fuel n : Nat) (h : n ≤ fuel) :
    natDigitsRevAux fuel n = Nat.digits 10 n := by
  induction fuel generalizing n with
  | zero =>
    have hn : n = 0 := Nat.le_zero.mp h
    simp [natDigitsRevAux, hn]
  | succ fuel ih =>
    by_cases hn : n = 0
    · simp [natDigitsRevAux, hn]
    · rw [natDigitsRevAux, if_neg hn,
        Nat.digits_def' (by omega : (1 : Nat) < 10) (by omega), ih]
      have := Nat.div_lt_self (by omega : 0 < n) (by omega : (1 : Nat) < 10)
      omega

/-- `Nat.digitChar` is injective on digits. -/
theorem digitChar_inj_lt10 (a b : Nat) (ha : a < 10) (hb : b < 10)
    (h : Nat.digitChar a = Nat.digitChar b) : a = b := by
  revert h
  interval_cases a <;> interval_cases b <;> decide

/-- Decimal rendering is injective: Python's `str` on naturals has no
leading zeros and determines the number. -/
theorem natDecimal_inj (n m : Nat) (h : natDecimal n = natDecimal m) :
    n = m := by
  unfold natDecimal at h
  by_cases hn : n = 0 <;> by_cases hm : m = 0
  · omega
  · exfalso
    rw [if_pos hn, if_neg hm, natDigitsRevAux_eq m m le_rfl] at h
    have hd : Nat.digits 10 m = [0] := by
      have hlen : ((Nat.digits 10 m).reverse.map Nat.digitChar).length = 1 := by
        rw [← h]
        rfl
      simp only [List.length_map, List.length_reverse] at hlen
      obtain ⟨d, hd'⟩ := List.length_eq_one.mp hlen
      rw [hd'] at h ⊢
      simp only [List.reverse_singleton, List.map_singleton] at h
      have : Nat.digitChar d = '0' := by
        injection h.symm
      have hdlt : d < 10 := Nat.digits_lt_base (by omega) (by rw [hd']; simp)
      have : d = 0 := digitChar_inj_lt10 d 0 hdlt (by omega) (by simpa using this)
      rw [this]
    have := Nat.ofDigits_digits 10 m
    rw [hd] at this
    simp [Nat.ofDigits] at this
    omega
  · exfalso
    rw [if_neg hn, if_pos hm, natDigitsRevAux_eq n n le_rfl] at h
    have hd : Nat.digits 10 n = [0] := by
      have hlen : ((Nat.digits 10 n).reverse.map Nat.digitChar).length = 1 := by
        rw [h]
        rfl
      simp only [List.length_map, List.length_reverse] at hlen
      obtain ⟨d, hd'⟩ := List.length_eq_one.mp hlen
      rw [hd'] at h ⊢
      simp only [List.reverse_singleton, List.map_singleton] at h
      have : Nat.digitChar d = '0' := by
        injection h
      have hdlt : d < 10 := Nat.digits_lt_base (by omega) (by rw [hd']; simp)
      have : d = 0 := digitChar_inj_lt10 d 0 hdlt (by omega) (by simpa using this)
      rw [this]
    have := Nat.ofDigits_digits 10 n
    rw [hd] at this
    simp [Nat.ofDigits] at this
    omega
  · rw [if_neg hn, if_neg hm, natDigitsRevAux_eq n n le_rfl,
      natDigitsRevAux_eq m m le_rfl] at h
    have hmap : ∀ (l1 l2 : List Nat), (∀ d ∈ l1, d < 10) → (∀ d ∈ l2, d < 10) →
        l1.map Nat.digitChar = l2.map Nat.digitChar → l1 = l2 := by
      intro l1
      induction l1 with
      | nil =>
        intro l2 _ _ hml
        cases l2 with
        | nil => rfl
        | cons c t => simp at hml
      | cons a t ih =>
        intro l2 h1 h2 hml
        cases l2 with
        | nil => simp at hml
        | cons c t2 =>
          simp only [List.map_cons, List.cons.injEq] at hml
          have hac : a = c := digitChar_inj_lt10 a c (h1 a (by simp))
            (h2 c (by simp)) hml.1
          rw [hac, ih t2 (fun d hd => h1 d (by simp [hd]))
            (fun d hd => h2 d (by simp [hd])) hml.2]
    have hrev : (Nat.digits 10 n).reverse = (Nat.digits 10 m).reverse := by
      apply hmap
      · intro d hd
        exact Nat.digits_lt_base (by omega) (List.mem_reverse.mp hd)
      · intro d hd
        exact Nat.digits_lt_base (by omega) (List.mem_reverse.mp hd)
      · exact h
    have : Nat.digits 10 n = Nat.digits 10 m := by
      have := congrArg List.reverse hrev
      simpa using this
    exact Nat.digits_inj_iff.mp this

/-- The parameter part of the cache key (app.py line 119): the f-string
`"{preset}:{size}:{model}:{refine}:{apply_despill}:{boost_dark_edges}:{crop}:{crop_margin}"`
with Python's renderings of each field, as a character list. -/
def encodeParams (p : Params) : List Char :=
  p.preset.data ++ ':' :: p.size.data ++ ':' :: pyOptStr p.model ++ ':' ::
    pyBool p.refine ++ ':' :: pyBool p.apply_despill ++ ':' ::
    pyBool p.boost_dark_edges ++ ':' :: pyBool p.crop ++ ':' ::
    natDecimal p.crop_margin

/-- A character list without the separator character. -/
def colonFree (l : List Char) : Prop :=
  ∀ c ∈ l, c ≠ ':'

/-- Splitting at the first colon: if the parts before the colon are
colon-free, they and the remainders agree. -/
theorem colon_split_left (as as2 rest rest2 : List Char)
    (ha : colonFree as) (ha2 : colonFree as2)
    (h : as ++ ':' :: rest = as2 ++ ':' :: rest2) :
    as = as2 ∧ rest = rest2 := by
  induction as generalizing as2 with
  | nil =>
    cases as2 with
    | nil =>
      simp only [List.nil_append, List.cons.injEq] at h
      exact ⟨rfl, h.2⟩
    | cons a2 t2 =>
      exfalso
      simp only [List.nil_append, List.cons_append, List.cons.injEq] at h
      exact ha2 a2 (by simp) h.1.symm
  | cons a t ih =>
    cases as2 with
    | nil =>
      exfalso
      simp only [List.cons_append, List.nil_append, List.cons.injEq] at h
      exact ha a (by simp) h.1
    | cons a2 t2 =>
      simp only [List.cons_append, List.cons.injEq] at h
      obtain ⟨h1, h2⟩ := ih t2 (fun c hc => ha c (by simp [hc]))
        (fun c hc => ha2 c (by simp [hc])) h.2
      exact ⟨by rw [h.1, h1], h2⟩

/-- Splitting at the last colon: if the parts after the colon are
colon-free, they and the fronts agree. -/
theorem colon_split_right (rest rest2 bs bs2 : List Char)
    (hb : colonFree bs) (hb2 : colonFree bs2)
    (h : rest ++ ':' :: bs = rest2 ++ ':' :: bs2) :
    rest = rest2 ∧ bs = bs2 := by
  have hrev : bs.reverse ++ ':' :: rest.reverse =
      bs2.reverse ++ ':' :: rest2.reverse := by
    have := congrArg List.reverse h
    simpa [List.reverse_append, List.append_assoc] using this
  obtain ⟨h1, h2⟩ := colon_split_left bs.reverse bs2.reverse rest.reverse
    rest2.reverse (fun c hc => hb c (List.mem_reverse.mp hc))
    (fun c hc => hb2 c (List.mem_reverse.mp hc)) hrev
  constructor
  · have := congrArg List.reverse h2
    simpa using this
  · have := congrArg List.reverse h1
    simpa using this

/-- A bounded check implies colon-freeness. -/
theorem colonFree_of_all (l : List Char)
    (h : l.all (fun c => !(c == ':')) = true) : colonFree l := by
  intro c hc
  have := List.all_eq_true.mp h c hc
  simpa using this

/-- Both boolean renderings avoid the separator. -/
theorem pyBool_colonFree (b : Bool) : colonFree (pyBool b) := by
  cases b <;> exact colonFree_of_all _ (by decide)

/-- Decimal renderings avoid the separator. -/
theorem natDecimal_colonFree (n : Nat) : colonFree (natDecimal n) := by
  intro c hc
  unfold natDecimal at hc
  by_cases hn : n = 0
  · rw [if_pos hn] at hc
    simp only [List.mem_singleton] at hc
    rw [hc]
    decide
  · rw [if_neg hn, natDigitsRevAux_eq n n le_rfl] at hc
    obtain ⟨d, hd, rfl⟩ := List.mem_map.mp hc
    have hdlt : d < 10 := Nat.digits_lt_base (by omega) (List.mem_reverse.mp hd)
    have hall : ∀ d, d < 10 → Nat.digitChar d ≠ ':' := by decide
    exact hall d hdlt

/-- The boolean rendering is injective. -/
theorem pyBool_inj (b1 b2 : Bool) (h : pyBool b1 = pyBool b2) : b1 = b2 := by
  revert h
  cases b1 <;> cases b2 <;> decide

/-- Character lists determine strings. -/
theorem stringData_inj (s t : String) (h : s.data = t.data) : s = t := by
  cases s
  cases t
  exact congrArg String.mk h

/-- The `Optional[str]` rendering is injective away from the one genuine
collision `None` / `"None"`. -/
theorem pyOptStr_inj (m1 m2 : Option String) (h : pyOptStr m1 = pyOptStr m2)
    (h1 : ¬(m1 = none ∧ m2 = some "None"))
    (h2 : ¬(m2 = none ∧ m1 = some "None")) : m1 = m2 := by
  cases m1 with
  | none =>
    cases m2 with
    | none => rfl
    | some s =>
      exfalso
      apply h1
      refine ⟨rfl, ?_⟩
      have : s = "None" := (stringData_inj s "None" h.symm)
      rw [this]
  | some s =>
    cases m2 with
    | none =>
      exfalso
      apply h2
      refine ⟨rfl, ?_⟩
      have : s = "None" := (stringData_inj s "None" h)
      rw [this]
    | some t =>
      rw [stringData_inj s t h]

/-- The cache-key parameter string, re-associated to the left so that the
five colon-free tail fields can be split off from the right. -/
theorem encodeParams_assoc (p : Params) :
    encodeParams p =
      ((((((p.preset.data ++ ':' :: p.size.data) ++ ':' :: pyOptStr p.model)
        ++ ':' :: pyBool p.refine) ++ ':' :: pyBool p.apply_despill)
        ++ ':' :: pyBool p.boost_dark_edges) ++ ':' :: pyBool p.crop)
        ++ ':' :: natDecimal p.crop_margin := by
  simp [encodeParams, List.append_assoc, List.cons_append]

/-- Claim C5, core (amended): the parameter string fed into the cache-key
hash determines every effective parameter — for validated `preset` and
`size` values, two parameter bags with the same encoding are equal,
except for the one rendering collision between "no model override" and
the explicit override string "None". -/
theorem encodeParams_injective (p1 p2 : Params)
    (hp1 : p1.preset = "fast" ∨ p1.preset = "balanced" ∨ p1.preset = "quality")
    (hp2 : p2.preset = "fast" ∨ p2.preset = "balanced" ∨ p2.preset = "quality")
    (hs1 : p1.size = "auto" ∨ p1.size = "preview" ∨ p1.size = "full")
    (hs2 : p2.size = "auto" ∨ p2.size = "preview" ∨ p2.size = "full")
    (halias1 : ¬(p1.model = none ∧ p2.model = some "None"))
    (halias2 : ¬(p2.model = none ∧ p1.model = some "None"))
    (hne : p1 ≠ p2) :
    encodeParams p1 ≠ encodeParams p2 := by
  intro h
  apply hne
  rw [encodeParams_assoc p1, encodeParams_assoc p2] at h
  obtain ⟨h, hmargin⟩ := colon_split_right _ _ _ _
    (natDecimal_colonFree _) (natDecimal_colonFree _) h
  obtain ⟨h, hcrop⟩ := colon_split_right _ _ _ _
    (pyBool_colonFree _) (pyBool_colonFree _) h
  obtain ⟨h, hboost⟩ := colon_split_right _ _ _ _
    (pyBool_colonFree _) (pyBool_colonFree _) h
  obtain ⟨h, hdespill⟩ := colon_split_right _ _ _ _
    (pyBool_colonFree _) (pyBool_colonFree _) h
  obtain ⟨h, hrefine⟩ := colon_split_right _ _ _ _
    (pyBool_colonFree _) (pyBool_colonFree _) h
  simp only [List.append_assoc, List.cons_append] at h
  have hpcf1 : colonFree p1.preset.data := by
    rcases hp1 with h1 | h1 | h1 <;> rw [h1] <;>
      exact colonFree_of_all _ (by decide)
  have hpcf2 : colonFree p2.preset.data := by
    rcases hp2 with h1 | h1 | h1 <;> rw [h1] <;>
      exact colonFree_of_all _ (by decide)
  obtain ⟨hpreset, h⟩ := colon_split_left _ _ _ _ hpcf1 hpcf2 h
  have hscf1 : colonFree p1.size.data := by
    rcases hs1 with h1 | h1 | h1 <;> rw [h1] <;>
      exact colonFree_of_all _ (by decide)
  have hscf2 : colonFree p2.size.data := by
    rcases hs2 with h1 | h1 | h1 <;> rw [h1] <;>
      exact colonFree_of_all _ (by decide)
  obtain ⟨hsize, hmodel⟩ := colon_split_left _ _ _ _ hscf1 hscf2 h
  have e1 : p1.preset = p2.preset := stringData_inj _ _ hpreset
  have e2 : p1.size = p2.size := stringData_inj _ _ hsize
  have e3 : p1.model = p2.model := pyOptStr_inj _ _ hmodel halias1 halias2
  have e4 : p1.refine = p2.refine := pyBool_inj _ _ hrefine
  have e5 : p1.apply_despill = p2.apply_despill := pyBool_inj _ _ hdespill
  have e6 : p1.boost_dark_edges = p2.boost_dark_edges := pyBool_inj _ _ hboost
  have e7 : p1.crop = p2.crop := pyBool_inj _ _ hcrop
  have e8 : p1.crop_margin = p2.crop_margin := natDecimal_inj _ _ hmargin
  have heta : p1 = ⟨p1.preset, p1.size, p1.model, p1.refine, p1.apply_despill,
      p1.boost_dark_edges, p1.crop, p1.crop_margin⟩ := rfl
  rw [heta, e1, e2, e3, e4, e5, e6, e7, e8]

/-- UTF-8 encoding of one character, as `str.encode()` produces it. -/
def utf8Char (c : Char) : List Nat :=
  if c.toNat < 128 then [c.toNat]
  else if c.toNat < 2048 then [192 + c.toNat / 64, 128 + c.toNat % 64]
  else if c.toNat < 65536 then
    [224 + c.toNat / 4096, 128 + c.toNat / 64 % 64, 128 + c.toNat % 64]
  else
    [240 + c.toNat / 262144, 128 + c.toNat / 4096 % 64,
     128 + c.toNat / 64 % 64, 128 + c.toNat % 64]

/-- UTF-8 encoding of a character list. -/
def utf8Encode (l : List Char) : List Nat :=
  (l.map utf8Char).flatten

/-- On ASCII text, UTF-8 is one byte per character, the code point. -/
theorem utf8Encode_ascii (l : List Char) (h : ∀ c ∈ l, c.toNat < 128) :
    utf8Encode l = l.map Char.toNat := by
  induction l with
  | nil => rfl
  | cons c t ih =>
    simp only [utf8Encode, List.map_cons, List.flatten_cons] at *
    rw [ih fun d hd => h d (by simp [hd])]
    have hc : utf8Char c = [c.toNat] := by
      unfold utf8Char
      rw [if_pos (h c (by simp))]
    rw [hc]
    rfl

/-- Code points determine characters. -/
theorem charToNat_inj (c d : Char) (h : c.toNat = d.toNat) : c = d := by
  apply Char.eq_of_val_eq
  apply UInt32.eq_of_toBitVec_eq
  apply BitVec.eq_of_toNat_eq
  exact h

/-- Mapping to code points is injective on character lists. -/
theorem mapToNat_inj (l1 l2 : List Char)
    (h : l1.map Char.toNat = l2.map Char.toNat) : l1 = l2 := by
  induction l1 generalizing l2 with
  | nil =>
    cases l2 with
    | nil => rfl
    | cons c t => simp at h
  | cons c t ih =>
    cases l2 with
    | nil => simp at h
    | cons d t2 =>
      simp only [List.map_cons, List.cons.injEq] at h
      rw [charToNat_inj c d h.1, ih t2 h.2]

/-- 32-bit right rotation on naturals below `2^32`. -/
def rotr32 (n x : Nat) : Nat :=
  (x / 2 ^ n + x % 2 ^ n * 2 ^ (32 - n)) % 2 ^ 32

/-- SHA-256 σ0. -/
def shaSmallSigma0 (x : Nat) : Nat :=
  (rotr32 7 x) ^^^ (rotr32 18 x) ^^^ (x / 2 ^ 3)

/-- SHA-256 σ1. -/
def shaSmallSigma1 (x : Nat) : Nat :=
  (rotr32 17 x) ^^^ (rotr32 19 x) ^^^ (x / 2 ^ 10)

/-- SHA-256 Σ0. -/
def shaBigSigma0 (x : Nat) : Nat :=
  (rotr32 2 x) ^^^ (rotr32 13 x) ^^^ (rotr32 22 x)

/-- SHA-256 Σ1. -/
def shaBigSigma1 (x : Nat) : Nat :=
  (rotr32 6 x) ^^^ (rotr32 11 x) ^^^ (rotr32 25 x)

/-- SHA-256 Ch (the complement is `2^32 - 1 - x` for 32-bit `x`). -/
def shaCh (x y z : Nat) : Nat :=
  (x &&& y) ^^^ ((2 ^ 32 - 1 - x) &&& z)

/-- SHA-256 Maj. -/
def shaMaj (x y z : Nat) : Nat :=
  (x &&& y) ^^^ (x &&& z) ^^^ (y &&& z)

/-- The 64 SHA-256 round constants (fractional parts of the cube roots of
the first 64 primes, FIPS 180-4). -/
def shaK : List Nat :=
  [1116352408, 1899447441, 3049323471, 3921009573, 961987163, 1508970993,
   2453635748, 2870763221, 3624381080, 310598401, 607225278, 1426881987,
   1925078388, 2162078206, 2614888103, 3248222580, 3835390401, 4022224774,
   264347078, 604807628, 770255983, 1249150122, 1555081692, 1996064986,
   2554220882, 2821834349, 2952996808, 3210313671, 3336571891, 3584528711,
   113926993, 338241895, 666307205, 773529912, 1294757372, 1396182291,
   1695183700, 1986661051, 2177026350, 2456956037, 2730485921, 2820302411,
   3259730800, 3345764771, 3516065817, 3600352804, 4094571909, 275423344,
   430227734, 506948616, 659060556, 883997877, 958139571, 1322822218,
   1537002063, 1747873779, 1955562222, 2024104815, 2227730452, 2361852424,
   2428436474, 2756734187, 3204031479, 3329325298]

/-- The initial SHA-256 state (fractional parts of the square roots of
the first 8 primes). -/
def shaH0 : List Nat :=
  [1779033703, 3144134277, 1013904242, 2773480762, 1359893119, 2600822924,
   528734635, 1541459225]

/-- Big-endian bytes to 32-bit words, four at a time. -/
def toWords : List Nat → List Nat
  | b0 :: b1 :: b2 :: b3 :: rest =>
    (((b0 * 256 + b1) * 256 + b2) * 256 + b3) :: toWords rest
  | _ => []

/-- Extend the 16 message words to the 64-entry SHA-256 schedule. -/
def shaExtend (ws : List Nat) : List Nat :=
  (List.range 48).foldl (fun acc i =>
    acc ++ [(shaSmallSigma1 (acc.getD (i + 14) 0) + acc.getD (i + 9) 0 +
      shaSmallSigma0 (acc.getD (i + 1) 0) + acc.getD i 0) % 2 ^ 32]) ws

/-- One SHA-256 compression round on the eight-word state. -/
def shaRound (st : List Nat) (kw : Nat) : List Nat :=
  match st with
  | [a, b, c, d, e, f, g, h] =>
    [((h + shaBigSigma1 e + shaCh e f g + kw) % 2 ^ 32 +
      (shaBigSigma0 a + shaMaj a b c) % 2 ^ 32) % 2 ^ 32,
     a, b, c,
     (d + (h + shaBigSigma1 e + shaCh e f g + kw) % 2 ^ 32) % 2 ^ 32,
     e, f, g]
  | st => st

/-- Compress one 64-byte block into the running state. -/
def shaCompress (h : List Nat) (block : List Nat) : List Nat :=
  (h.zip (((shaK.zip (shaExtend (toWords block))).map
      (fun p => (p.1 + p.2) % 2 ^ 32)).foldl shaRound h)).map
    (fun p => (p.1 + p.2) % 2 ^ 32)

/-- `k` big-endian bytes of `n`. -/
def beBytes : Nat → Nat → List Nat
  | 0, _ => []
  | k + 1, n => (n / 2 ^ (8 * k)) % 256 :: beBytes k n

/-- SHA-256 padding: append `0x80`, zeros up to 56 mod 64, and the
bit length as 8 big-endian bytes. -/
def shaPad (msg : List Nat) : List Nat :=
  msg ++ 128 :: List.replicate ((119 - msg.length % 64) % 64) 0 ++
    beBytes 8 (8 * msg.length)

/-- Split into 64-byte blocks (the fuel is the block count). -/
def chunks64 : Nat → List Nat → List (List Nat)
  | 0, _ => []
  | fuel + 1, l => l.take 64 :: chunks64 fuel (l.drop 64)

/-- The SHA-256 digest (32 bytes) of a byte list. -/
def sha256Bytes (msg : List Nat) : List Nat :=
  (((chunks64 ((shaPad msg).length / 64) (shaPad msg)).foldl shaCompress
    shaH0).map (beBytes 4)).flatten

/-- Two lowercase hex characters of a byte. -/
def byteHex (b : Nat) : List Char :=
  [Nat.digitChar (b / 16), Nat.digitChar (b % 16)]

/-- `_hash_bytes` (app.py lines 58–59): `hashlib.sha256(data).hexdigest()`
— the lowercase hex digest as a character list. -/
def hashBytesHex (data : List Nat) : List Char :=
  ((sha256Bytes data).map byteHex).flatten

/-- The byte string hashed to derive the cache key (app.py line 119):
uploaded contents followed by the UTF-8 bytes of the parameter f-string. -/
def cacheKeyBytes (contents : List Nat) (p : Params) : List Nat :=
  contents ++ utf8Encode (encodeParams p)

/-- The cache key of a request (app.py line 119): the SHA-256 hex digest
of the contents + parameter-string bytes. -/
def cacheKey (contents : List Nat) (p : Params) : List Char :=
  hashBytesHex (cacheKeyBytes contents p)

/-- Membership in the encoded parameter string decomposes into the fields
and the separators. -/
theorem mem_encodeParams (p : Params) (c : Char) (hc : c ∈ encodeParams p) :
    c ∈ p.preset.data ∨ c ∈ p.size.data ∨ c ∈ pyOptStr p.model ∨
    c ∈ pyBool p.refine ∨ c ∈ pyBool p.apply_despill ∨
    c ∈ pyBool p.boost_dark_edges ∨ c ∈ pyBool p.crop ∨
    c ∈ natDecimal p.crop_margin ∨ c = ':' := by
  simp only [encodeParams, List.mem_append, List.mem_cons] at hc
  tauto

/-- Decimal renderings are ASCII. -/
theorem natDecimal_ascii (n : Nat) : ∀ c ∈ natDecimal n, c.toNat < 128 := by
  intro c hc
  unfold natDecimal at hc
  by_cases hn : n = 0
  · rw [if_pos hn] at hc
    simp only [List.mem_singleton] at hc
    rw [hc]
    decide
  · rw [if_neg hn, natDigitsRevAux_eq n n le_rfl] at hc
    obtain ⟨d, hd, rfl⟩ := List.mem_map.mp hc
    have hdlt : d < 10 := Nat.digits_lt_base (by omega) (List.mem_reverse.mp hd)
    exact (by decide : ∀ d, d < 10 → (Nat.digitChar d).toNat < 128) d hdlt

/-- With a validated preset and size and an ASCII model override, the
whole parameter string is ASCII. -/
theorem encodeParams_ascii (p : Params)
    (hp : p.preset = "fast" ∨ p.preset = "balanced" ∨ p.preset = "quality")
    (hs : p.size = "auto" ∨ p.size = "preview" ∨ p.size = "full")
    (hm : ∀ s, p.model = some s → ∀ c ∈ s.data, c.toNat < 128) :
    ∀ c ∈ encodeParams p, c.toNat < 128 := by
  intro c hc
  rcases mem_encodeParams p c hc with h | h | h | h | h | h | h | h | h
  · rcases hp with e | e | e <;> rw [e] at h
    · exact (by decide : ∀ x ∈ "fast".data, Char.toNat x < 128) c h
    · exact (by decide : ∀ x ∈ "balanced".data, Char.toNat x < 128) c h
    · exact (by decide : ∀ x ∈ "quality".data, Char.toNat x < 128) c h
  · rcases hs with e | e | e <;> rw [e] at h
    · exact (by decide : ∀ x ∈ "auto".data, Char.toNat x < 128) c h
    · exact (by decide : ∀ x ∈ "preview".data, Char.toNat x < 128) c h
    · exact (by decide : ∀ x ∈ "full".data, Char.toNat x < 128) c h
  · cases hmod : p.model with
    | none =>
      rw [hmod] at h
      exact (by decide : ∀ x ∈ "None".data, Char.toNat x < 128) c h
    | some s =>
      rw [hmod] at h
      exact hm s hmod c h
  · cases hb : p.refine <;> rw [hb] at h <;>
      revert h <;>
      exact fun h => (by decide :
        ∀ x ∈ pyBool false ++ pyBool true, Char.toNat x < 128) c (by
          simp only [List.mem_append]
          tauto)
  · cases hb : p.apply_despill <;> rw [hb] at h
    · exact (by decide : ∀ x ∈ pyBool false, Char.toNat x < 128) c h
    · exact (by decide : ∀ x ∈ pyBool true, Char.toNat x < 128) c h
  · cases hb : p.boost_dark_edges <;> rw [hb] at h
    · exact (by decide : ∀ x ∈ pyBool false, Char.toNat x < 128) c h
    · exact (by decide : ∀ x ∈ pyBool true, Char.toNat x < 128) c h
  · cases hb : p.crop <;> rw [hb] at h
    · exact (by decide : ∀ x ∈ pyBool false, Char.toNat x < 128) c h
    · exact (by decide : ∀ x ∈ pyBool true, Char.toNat x < 128) c h
  · exact natDecimal_ascii p.crop_margin c h
  · rw [h]
    decide

/-- Claim C5 (amended): for two requests with identical uploaded bytes,
validated `preset` and `size` values and ASCII model overrides, if the
effective parameters differ in at least one of the eight keyed fields —
and the model overrides are not the `None`-versus-"None" rendering
collision — then the byte strings from which the cache keys are derived
differ.  (The keys themselves are the SHA-256 digests of these byte
strings and hence differ except on a SHA-256 collision, which cannot be
excluded by proof.) -/
theorem cacheKeyBytes_injective (contents : List Nat) (p1 p2 : Params)
    (hp1 : p1.preset = "fast" ∨ p1.preset = "balanced" ∨ p1.preset = "quality")
    (hp2 : p2.preset = "fast" ∨ p2.preset = "balanced" ∨ p2.preset = "quality")
    (hs1 : p1.size = "auto" ∨ p1.size = "preview" ∨ p1.size = "full")
    (hs2 : p2.size = "auto" ∨ p2.size = "preview" ∨ p2.size = "full")
    (halias1 : ¬(p1.model = none ∧ p2.model = some "None"))
    (halias2 : ¬(p2.model = none ∧ p1.model = some "None"))
    (hm1 : ∀ s, p1.model = some s → ∀ c ∈ s.data, c.toNat < 128)
    (hm2 : ∀ s, p2.model = some s → ∀ c ∈ s.data, c.toNat < 128)
    (hne : p1 ≠ p2) :
    cacheKeyBytes contents p1 ≠ cacheKeyBytes contents p2 := by
  intro h
  apply encodeParams_injective p1 p2 hp1 hp2 hs1 hs2 halias1 halias2 hne
  have h2 : utf8Encode (encodeParams p1) = utf8Encode (encodeParams p2) :=
    List.append_cancel_left h
  rw [utf8Encode_ascii _ (encodeParams_ascii p1 hp1 hs1 hm1),
    utf8Encode_ascii _ (encodeParams_ascii p2 hp2 hs2 hm2)] at h2
  exact mapToNat_inj _ _ h2

/-- Witness for C5: identical contents, parameters differing only in the
refine flag, yield different hashed byte strings, by
`cacheKeyBytes_injective`. -/
theorem cacheKeyBytes_injective_witness :
    cacheKeyBytes [1, 2, 3]
        ⟨"quality", "auto", none, true, true, true, true, 10⟩ ≠
      cacheKeyBytes [1, 2, 3]
        ⟨"quality", "auto", none, false, true, true, true, 10⟩ :=
  cacheKeyBytes_injective [1, 2, 3]
    ⟨"quality", "auto", none, true, true, true, true, 10⟩
    ⟨"quality", "auto", none, false, true, true, true, 10⟩
    (by decide) (by decide) (by decide) (by decide) (by decide) (by decide)
    (fun s hs => nomatch hs) (fun s hs => nomatch hs) (by decide)

/-- Counterexample for C5 as stated: the explicit model override string
"None" and the absent override both render as "None" in the key f-string,
so two requests with identical bytes whose model-override parameters
differ derive the same byte string and hence the same cache key. -/
theorem cacheKey_collision_counterexample :
    (⟨"quality", "auto", none, true, true, true, true, 10⟩ : Params) ≠
      ⟨"quality", "auto", some "None", true, true, true, true, 10⟩ ∧
    cacheKey [120] ⟨"quality", "auto", none, true, true, true, true, 10⟩ =
      cacheKey [120] ⟨"quality", "auto", some "None", true, true, true, true, 10⟩ := by
  constructor
  · decide
  · exact congrArg (fun e => hashBytesHex ([120] ++ utf8Encode e))
      (rfl : encodeParams ⟨"quality", "auto", none, true, true, true, true, 10⟩ =
        encodeParams ⟨"quality", "auto", some "None", true, true, true, true, 10⟩)

/-- One invocation of the external segmentation collaborator
(`rembg.remove`, app.py lines 161–172): the PNG bytes passed in, the model
whose session is used, and every keyword option of the call. -/
structure SegCall where
  input : List Nat
  sessionModel : String
  onlyMask : Bool
  alphaMatting : Bool
  fgThreshold : Nat
  bgThreshold : Nat
  erodeSize : Nat
deriving DecidableEq

/-- The typed failures of a request: the empty-upload 400, the
model-load 400, and the decode/encode/segmentation exceptions that
propagate out of the endpoint. -/
inductive PipeErr where
  | emptyInput
  | modelLoadFailure (msg : String)
  | decodeFailure (msg : String)
  | encodeFailure (msg : String)
  | segmentationFailure (msg : String)
deriving DecidableEq

/-- The external collaborators the endpoint calls: model loading
(`get_session`; the session handle itself is opaque, the call record
carries the model name), PIL decode (`Image.open(...).convert("RGBA")`),
PIL PNG encode (`save`), the segmentation model (`rembg.remove`), the two
resampling filters (LANCZOS for the image, NEAREST for the mask), and the
box-blur constants Pillow derives from the Gaussian radius 1.0 used by
`_refine_alpha`.  Every theorem below holds for every behaviour of
these. -/
structure Collab where
  getSession : String → Except String Unit
  decode : List Nat → Except String Img
  encodePng : Img → Except String (List Nat)
  removeSeg : SegCall → Except String (List Nat)
  resizeLanczos : Img → Nat → Nat → Img
  resizeNearest : Mask → Nat → Nat → Mask
  blurKernel1 : BlurKernel

/-- One entry of the preset table: model name, inference cap, and the
(unused) matting flag. -/
structure Preset where
  model : String
  max_side : Nat
  matting : Bool

/-- `DEFAULT_MODEL` (app.py line 32): the `DEFAULT_REMBG_MODEL`
environment variable, modelled at its default "birefnet-general". -/
def DEFAULT_MODEL : String := "birefnet-general"

/-- `PRESETS` (app.py lines 43–47). -/
def PRESETS : String → Option Preset
  | "fast" => some ⟨"u2netp", 640, false⟩
  | "balanced" => some ⟨"u2net", 1280, false⟩
  | "quality" => some ⟨DEFAULT_MODEL, 2048, true⟩
  | _ => none

/-- `model or PRESETS.get(preset, PRESETS["quality"])["model"]` (app.py
line 125): an explicit non-empty override wins, otherwise (including the
falsy empty string) the preset's model; an unknown preset falls back to
the quality entry. -/
def chosenModel (presets : String → Option Preset) (q : Params) : String :=
  match q.model with
  | some m =>
    if m = "" then ((presets q.preset).getD ⟨DEFAULT_MODEL, 2048, true⟩).model
    else m
  | none => ((presets q.preset).getD ⟨DEFAULT_MODEL, 2048, true⟩).model

/-- `PRESETS.get(preset, PRESETS["quality"])["max_side"]` (app.py lines
132–133). -/
def presetMaxSide (presets : String → Option Preset) (q : Params) : Nat :=
  ((presets q.preset).getD ⟨DEFAULT_MODEL, 2048, true⟩).max_side

/-- Python's `round()` (round-half-to-even) on an exact rational; the
endpoint's float `scale` arithmetic is modelled by the exact rational it
approximates. -/
def pyRound (x : ℚ) : Int :=
  if x - ⌊x⌋ > 1 / 2 then ⌊x⌋ + 1
  else if x - ⌊x⌋ < 1 / 2 then ⌊x⌋
  else if ⌊x⌋ % 2 = 0 then ⌊x⌋ else ⌊x⌋ + 1

/-- The process-wide result cache `CACHE` (app.py line 49), as an
association list from hex key to PNG bytes. -/
abbrev Cache := List (List Char × List Nat)

/-- `cache_key in CACHE` / `CACHE[cache_key]` (app.py lines 120–121). -/
def cacheFind (c : Cache) (k : List Char) : Option (List Nat) :=
  List.lookup k c

/-- `CACHE[cache_key] = ...` (app.py line 194). -/
def cacheInsert (c : Cache) (k : List Char) (v : List Nat) : Cache :=
  (k, v) :: c

/-- The outcome of one request: the HTTP result (PNG bytes or a typed
error), the cache after the request, and the segmentation calls made. -/
structure RunResult where
  response : Except PipeErr (List Nat)
  cache : Cache
  segLog : List SegCall

/-- The `remove_bg` endpoint (app.py lines 102–199) for one request:
empty-upload check, cache probe, lazy session load, decode, optional
downscale for inference (capped at 1200 px), PNG re-encode, one
segmentation call with fixed alpha-matting options, alpha extraction and
optional NEAREST upscale, optional refine, composite over a transparent
background, optional despill, optional crop, PNG encode, cache store. -/
def removeBg (cb : Collab) (presets : String → Option Preset) (cache : Cache)
    (q : Params) (contents : List Nat) : RunResult :=
  if contents = [] then ⟨.error .emptyInput, cache, []⟩
  else
    match cacheFind cache (cacheKey contents q) with
    | some png => ⟨.ok png, cache, []⟩
    | none =>
      match cb.getSession (chosenModel presets q) with
      | .error e => ⟨.error (.modelLoadFailure e), cache, []⟩
      | .ok _ =>
        match cb.decode contents with
        | .error e => ⟨.error (.decodeFailure e), cache, []⟩
        | .ok original =>
          let ow := original.w
          let oh := original.h
          let procMaxSide :=
            if q.size = "preview" then min 512 (presetMaxSide presets q)
            else if q.size = "full" then max ow oh
            else presetMaxSide presets q
          let maxProcessing := min procMaxSide 1200
          let doResize := maxProcessing < max ow oh ∧ 0 < maxProcessing
          let procImg :=
            if doResize then
              cb.resizeLanczos original
                (pyRound ((ow : ℚ) * maxProcessing / max ow oh)).toNat
                (pyRound ((oh : ℚ) * maxProcessing / max ow oh)).toNat
            else original
          match cb.encodePng procImg with
          | .error e => ⟨.error (.encodeFailure e), cache, []⟩
          | .ok dataBytes =>
            let call : SegCall :=
              ⟨dataBytes, chosenModel presets q, false, true, 245, 10, 3⟩
            match cb.removeSeg call with
            | .error e => ⟨.error (.segmentationFailure e), cache, [call]⟩
            | .ok removedBytes =>
              match cb.decode removedBytes with
              | .error e => ⟨.error (.decodeFailure e), cache, [call]⟩
              | .ok removed =>
                let a1 :=
                  if doResize then cb.resizeNearest removed.alphaBand ow oh
                  else removed.alphaBand
                let a2 :=
                  if q.refine then
                    refineAlpha a1 1 2 (some cb.blurKernel1) q.boost_dark_edges
                  else a1
                let out0 := pilComposite original (zeroImg ow oh) a2
                let out1 :=
                  if q.apply_despill then premultiplyAndClean out0 else out0
                let out2 :=
                  if q.crop then cropWithMargin out1 q.crop_margin else out1
                match cb.encodePng out2 with
                | .error e => ⟨.error (.encodeFailure e), cache, [call]⟩
                | .ok png =>
                  ⟨.ok png, cacheInsert cache (cacheKey contents q) png, [call]⟩

/-- Every run either fails leaving the cache untouched, succeeds and
appends exactly its own entry, or is a cache hit. -/
theorem removeBg_cases (cb : Collab) (presets : String → Option Preset)
    (cache : Cache) (q : Params) (contents : List Nat) :
    (∃ e log, removeBg cb presets cache q contents = ⟨.error e, cache, log⟩) ∨
    (∃ png log, removeBg cb presets cache q contents =
      ⟨.ok png, cacheInsert cache (cacheKey contents q) png, log⟩) ∨
    (∃ png, removeBg cb presets cache q contents = ⟨.ok png, cache, []⟩) := by
  unfold removeBg
  repeat' first | split | dsimp only
  all_goals first
    | exact Or.inl ⟨_, _, rfl⟩
    | exact Or.inr (Or.inl ⟨_, _, rfl⟩)
    | exact Or.inr (Or.inr ⟨_, rfl⟩)

/-- Claim C6 (confirmed): cache writes are atomic — a failed request
leaves the cache exactly as it was, and whenever the cache changed the
request succeeded and the new cache is the old one plus the entry for
this request's key holding the fully encoded PNG. -/
theorem cache_write_atomic (cb : Collab) (presets : String → Option Preset)
    (cache : Cache) (q : Params) (contents : List Nat) :
    (∀ e, (removeBg cb presets cache q contents).response = .error e →
      (removeBg cb presets cache q contents).cache = cache) ∧
    ((removeBg cb presets cache q contents).cache ≠ cache →
      ∃ png, (removeBg cb presets cache q contents).response = .ok png ∧
        (removeBg cb presets cache q contents).cache =
          cacheInsert cache (cacheKey contents q) png) := by
  rcases removeBg_cases cb presets cache q contents with
    ⟨e, log, hR⟩ | ⟨png, log, hR⟩ | ⟨png, hR⟩
  · rw [hR]
    exact ⟨fun _ _ => rfl, fun hc => absurd rfl hc⟩
  · rw [hR]
    exact ⟨fun e he => absurd he (by simp), fun _ => ⟨png, rfl, rfl⟩⟩
  · rw [hR]
    exact ⟨fun e he => absurd he (by simp), fun hc => absurd rfl hc⟩

/-- Claim C2 (amended): the segmentation collaborator is invoked at most
once per request — no retry, no fallback — and if that single invocation
failed, the request fails with exactly that segmentation error. -/
theorem segmentation_no_retry (cb : Collab) (presets : String → Option Preset)
    (cache : Cache) (q : Params) (contents : List Nat) :
    (removeBg cb presets cache q contents).segLog.length ≤ 1 ∧
    (∀ call, (removeBg cb presets cache q contents).segLog = [call] →
      ∀ msg, cb.removeSeg call = .error msg →
        (removeBg cb presets cache q contents).response =
          .error (.segmentationFailure msg)) := by
  unfold removeBg
  repeat' first | split | dsimp only
  all_goals refine ⟨by simp, ?_⟩
  all_goals intro call hcall msg hseg
  all_goals try (exact List.noConfusion hcall)
  all_goals rw [List.cons.injEq] at hcall
  all_goals obtain ⟨hcall2, -⟩ := hcall
  all_goals subst hcall2
  all_goals simp_all

/-- A concrete collaborator bundle whose segmentation always fails and
whose other collaborators are trivial. -/
def failingSegCollab : Collab where
  getSession := fun _ => .ok ()
  decode := fun _ => .ok ⟨1, 1, fun _ _ => ⟨0, 0, 0, 255⟩⟩
  encodePng := fun _ => .ok [0]
  removeSeg := fun _ => .error "boom"
  resizeLanczos := fun i _ _ => i
  resizeNearest := fun m _ _ => m
  blurKernel1 := ⟨1, 5592405, 1⟩

/-- The default query parameters of the endpoint: preset "quality", size
"auto", no model override, all post-processing on, margin 10. -/
def defaultParams : Params :=
  ⟨"quality", "auto", none, true, true, true, true, 10⟩

/-- Counterexample for C2 as stated: with a collaborator that always
fails, the run makes exactly one segmentation call — still with alpha
matting enabled and the preset model, not a degraded fallback — and
surfaces the failure at once; there is no second call, contradicting
"retries exactly once with matting disabled". -/
theorem segmentation_no_retry_counterexample :
    (removeBg failingSegCollab PRESETS [] defaultParams [7]).response =
      .error (.segmentationFailure "boom") ∧
    (removeBg failingSegCollab PRESETS [] defaultParams [7]).segLog =
      [⟨[0], "birefnet-general", false, true, 245, 10, 3⟩] ∧
    (removeBg failingSegCollab PRESETS [] defaultParams [7]).segLog.length
      ≠ 2 := by
  refine ⟨rfl, rfl, by decide⟩

/-- Witness for C2: the amended theorem applied to the always-failing
collaborator at concrete inputs. -/
theorem segmentation_no_retry_witness :
    (removeBg failingSegCollab PRESETS [] defaultParams [8]).segLog.length
      ≤ 1 ∧
    (removeBg failingSegCollab PRESETS [] defaultParams [8]).response =
      .error (.segmentationFailure "boom") :=
  ⟨(segmentation_no_retry failingSegCollab PRESETS [] defaultParams [8]).1,
   (segmentation_no_retry failingSegCollab PRESETS [] defaultParams [8]).2
     ⟨[0], "birefnet-general", false, true, 245, 10, 3⟩ rfl "boom" rfl⟩

/-- A concrete collaborator bundle whose decode always fails. -/
def failingDecodeCollab : Collab where
  getSession := fun _ => .ok ()
  decode := fun _ => .error "cannot identify image file"
  encodePng := fun _ => .ok [0]
  removeSeg := fun _ => .ok [0]
  resizeLanczos := fun i _ _ => i
  resizeNearest := fun m _ _ => m
  blurKernel1 := ⟨1, 5592405, 1⟩

/-- Witness for C6: a failing decode at a nonempty cache leaves the cache
unchanged, by `cache_write_atomic`. -/
theorem cache_write_atomic_witness :
    (removeBg failingDecodeCollab PRESETS [(['k'], [9])] defaultParams
      [7]).cache = [(['k'], [9])] :=
  (cache_write_atomic failingDecodeCollab PRESETS [(['k'], [9])]
    defaultParams [7]).1 (.decodeFailure "cannot identify image file") rfl

/-- Claim C10 (confirmed): every segmentation invocation is made with
`only_mask=False, alpha_matting=True` and the fixed thresholds 245/10 and
erode size 3, whatever the preset and parameters; and the `matting` field
of the preset table is never read — preset tables agreeing on `model` and
`max_side` produce identical runs. -/
theorem seg_options_fixed (cb : Collab)
    (presets presets2 : String → Option Preset) (cache : Cache) (q : Params)
    (contents : List Nat) :
    (∀ call ∈ (removeBg cb presets cache q contents).segLog,
      call.alphaMatting = true ∧ call.fgThreshold = 245 ∧
      call.bgThreshold = 10 ∧ call.erodeSize = 3 ∧ call.onlyMask = false) ∧
    ((∀ s, (presets s).map Preset.model = (presets2 s).map Preset.model ∧
        (presets s).map Preset.max_side = (presets2 s).map Preset.max_side) →
      removeBg cb presets cache q contents =
        removeBg cb presets2 cache q contents) := by
  constructor
  · unfold removeBg
    repeat' first | split | dsimp only
    all_goals intro call hcall
    all_goals try (exact absurd hcall (List.not_mem_nil call))
    all_goals simp only [List.mem_singleton] at hcall
    all_goals subst hcall
    all_goals exact ⟨rfl, rfl, rfl, rfl, rfl⟩
  · intro hagree
    have hd : ((presets q.preset).getD ⟨DEFAULT_MODEL, 2048, true⟩).model =
        ((presets2 q.preset).getD ⟨DEFAULT_MODEL, 2048, true⟩).model := by
      have h := (hagree q.preset).1
      cases hq : presets q.preset <;> cases hq2 : presets2 q.preset <;>
        rw [hq, hq2] at h <;> simp_all [Option.getD]
    have hmodel : chosenModel presets q = chosenModel presets2 q := by
      unfold chosenModel
      cases q.model with
      | none => exact hd
      | some m =>
        dsimp only
        by_cases hm : m = ""
        · rw [if_pos hm, if_pos hm]
          exact hd
        · rw [if_neg hm, if_neg hm]
    have hside : presetMaxSide presets q = presetMaxSide presets2 q := by
      have h := (hagree q.preset).2
      unfold presetMaxSide
      cases hq : presets q.preset <;> cases hq2 : presets2 q.preset <;>
        rw [hq, hq2] at h <;> simp_all [Option.getD]
    unfold removeBg
    rw [hmodel, hside]

/-- The preset table with every `matting` flag flipped (and model and
max_side untouched). -/
def flippedPresets : String → Option Preset := fun s =>
  (PRESETS s).map fun c => ⟨c.model, c.max_side, !c.matting⟩

/-- Witness for C10: the options of the one call made by a concrete run,
and the equality of the runs under `PRESETS` and its matting-flipped
variant, by `seg_options_fixed`. -/
theorem seg_options_fixed_witness :
    ((⟨[0], "birefnet-general", false, true, 245, 10, 3⟩ :
        SegCall).alphaMatting = true ∧
      (⟨[0], "birefnet-general", false, true, 245, 10, 3⟩ :
        SegCall).fgThreshold = 245 ∧
      (⟨[0], "birefnet-general", false, true, 245, 10, 3⟩ :
        SegCall).bgThreshold = 10 ∧
      (⟨[0], "birefnet-general", false, true, 245, 10, 3⟩ :
        SegCall).erodeSize = 3 ∧
      (⟨[0], "birefnet-general", false, true, 245, 10, 3⟩ :
        SegCall).onlyMask = false) ∧
    removeBg failingSegCollab PRESETS [] defaultParams [9] =
      removeBg failingSegCollab flippedPresets [] defaultParams [9] :=
  ⟨(seg_options_fixed failingSegCollab PRESETS PRESETS [] defaultParams
      [9]).1 ⟨[0], "birefnet-general", false, true, 245, 10, 3⟩ (by decide),
   (seg_options_fixed failingSegCollab PRESETS flippedPresets []
      defaultParams [9]).2 (fun s => by
        cases hps : PRESETS s <;> simp [flippedPresets, hps])⟩

/-- The C1 scenario input: a 300×300 canvas, fully transparent except a
fully opaque red 100×100 square occupying rows and columns 100..199. -/
def squareImg : Img :=
  ⟨300, 300, fun x y =>
    if 100 ≤ x ∧ x < 200 ∧ 100 ≤ y ∧ y < 200 then ⟨255, 0, 0, 255⟩
    else ⟨0, 0, 0, 0⟩⟩

/-- The C1 segmentation result: alpha 255 inside the square, 0 outside. -/
def squareMask : Mask :=
  ⟨300, 300, fun x y =>
    if 100 ≤ x ∧ x < 200 ∧ 100 ≤ y ∧ y < 200 then 255 else 0⟩

/-- The composite stage of the scenario (app.py lines 182–183 with
refine=false). -/
def compositedC1 : Img :=
  pilComposite squareImg (zeroImg 300 300) squareMask

/-- The scenario pipeline with refine=false, despill=false, crop=true,
margin=10 (app.py lines 179–189): composite, then `_crop_with_margin`. -/
def pipelineC1 : Img :=
  cropWithMargin compositedC1 10

/-- The composited scenario image pixel by pixel: the red square where the
mask is 255, transparent black elsewhere. -/
theorem compositedC1_px (x y : Nat) :
    compositedC1.px x y =
      if 100 ≤ x ∧ x < 200 ∧ 100 ≤ y ∧ y < 200 then ⟨255, 0, 0, 255⟩
      else ⟨0, 0, 0, 0⟩ := by
  by_cases h : 100 ≤ x ∧ x < 200 ∧ 100 ≤ y ∧ y < 200
  · simp only [compositedC1, pilComposite, zeroImg, squareImg, squareMask,
      if_pos h]
    decide
  · simp only [compositedC1, pilComposite, zeroImg, squareImg, squareMask,
      if_neg h]
    decide

/-- The bounding box of a mask whose nonzero support is exactly the
rectangle `[x0, x1) × [y0, y1)`. -/
theorem getbbox_rect (m : Mask) (x0 x1 y0 y1 : Nat)
    (hx01 : x0 < x1) (hx1w : x1 ≤ m.w) (hy01 : y0 < y1) (hy1h : y1 ≤ m.h)
    (hpx : ∀ x y, m.px x y ≠ 0 ↔ x0 ≤ x ∧ x < x1 ∧ y0 ≤ y ∧ y < y1) :
    m.getbbox = some (x0, y0, x1, y1) := by
  have hcol : ∀ x, m.colHit x = true ↔ (x0 ≤ x ∧ x < x1) := by
    intro x
    unfold Mask.colHit
    rw [List.any_eq_true]
    constructor
    · rintro ⟨y, _, hne⟩
      have hy := (hpx x y).mp (by simpa using hne)
      exact ⟨hy.1, hy.2.1⟩
    · intro hx
      refine ⟨y0, List.mem_range.mpr (by omega), ?_⟩
      simp only [bne_iff_ne, ne_eq]
      exact (hpx x y0).mpr ⟨hx.1, hx.2, le_refl y0, hy01⟩
  have hrow : ∀ y, m.rowHit y = true ↔ (y0 ≤ y ∧ y < y1) := by
    intro y
    unfold Mask.rowHit
    rw [List.any_eq_true]
    constructor
    · rintro ⟨x, _, hne⟩
      have hy := (hpx x y).mp (by simpa using hne)
      exact ⟨hy.2.2.1, hy.2.2.2⟩
    · intro hy
      refine ⟨x0, List.mem_range.mpr (by omega), ?_⟩
      simp only [bne_iff_ne, ne_eq]
      exact (hpx x0 y).mpr ⟨le_refl x0, hx01, hy.1, hy.2⟩
  have hminx : ((List.range m.w).filter m.colHit).min? = some x0 := by
    rw [List.min?_eq_some_iff']
    constructor
    · rw [List.mem_filter]
      exact ⟨List.mem_range.mpr (by omega), (hcol x0).mpr ⟨le_refl x0, hx01⟩⟩
    · intro b hb
      rw [List.mem_filter] at hb
      exact ((hcol b).mp hb.2).1
  have hmaxx : ((List.range m.w).filter m.colHit).max? = some (x1 - 1) := by
    rw [List.max?_eq_some_iff']
    constructor
    · rw [List.mem_filter]
      exact ⟨List.mem_range.mpr (by omega),
        (hcol (x1 - 1)).mpr ⟨by omega, by omega⟩⟩
    · intro b hb
      rw [List.mem_filter] at hb
      have := ((hcol b).mp hb.2).2
      omega
  have hminy : ((List.range m.h).filter m.rowHit).min? = some y0 := by
    rw [List.min?_eq_some_iff']
    constructor
    · rw [List.mem_filter]
      exact ⟨List.mem_range.mpr (by omega), (hrow y0).mpr ⟨le_refl y0, hy01⟩⟩
    · intro b hb
      rw [List.mem_filter] at hb
      exact ((hrow b).mp hb.2).1
  have hmaxy : ((List.range m.h).filter m.rowHit).max? = some (y1 - 1) := by
    rw [List.max?_eq_some_iff']
    constructor
    · rw [List.mem_filter]
      exact ⟨List.mem_range.mpr (by omega),
        (hrow (y1 - 1)).mpr ⟨by omega, by omega⟩⟩
    · intro b hb
      rw [List.mem_filter] at hb
      have := ((hrow b).mp hb.2).2
      omega
  unfold Mask.getbbox
  rw [hminx, hminy, hmaxx, hmaxy]
  have ex : x1 - 1 + 1 = x1 := by omega
  have ey : y1 - 1 + 1 = y1 := by omega
  simp [ex, ey]

/-- The alpha band of the composited scenario image is nonzero exactly on
the square. -/
theorem compositedC1_alpha (x y : Nat) :
    compositedC1.alphaBand.px x y ≠ 0 ↔
      100 ≤ x ∧ x < 200 ∧ 100 ≤ y ∧ y < 200 := by
  show (compositedC1.px x y).a ≠ 0 ↔ _
  rw [compositedC1_px]
  by_cases h : 100 ≤ x ∧ x < 200 ∧ 100 ≤ y ∧ y < 200
  · simp [h]
  · simp [h]

/-- `getbbox` of the composited scenario alpha: the square, with the
exclusive PIL convention. -/
theorem compositedC1_bbox :
    compositedC1.alphaBand.getbbox = some (100, 100, 200, 200) :=
  getbbox_rect compositedC1.alphaBand 100 200 100 200 (by decide)
    (by decide) (by decide) (by decide) compositedC1_alpha

/-- Claim C1 (amended): the end-to-end crop scenario yields a 140×140
image — not 120×120 — because `_crop_with_margin` first grows the crop
box by the margin (yielding 120×120 with a 10-pixel transparent border)
and then pads the result by the margin again with `ImageOps.expand`; the
square sits at (20,20)–(120,120) with a fully transparent border of width
20 on every side. -/
theorem crop_scenario (x y : Nat) :
    pipelineC1.w = 140 ∧ pipelineC1.h = 140 ∧
    pipelineC1.px x y =
      (if 20 ≤ x ∧ x < 120 ∧ 20 ≤ y ∧ y < 120 then ⟨255, 0, 0, 255⟩
       else ⟨0, 0, 0, 0⟩) := by
  unfold pipelineC1 cropWithMargin
  simp only [compositedC1_bbox]
  refine ⟨by decide, by decide, ?_⟩
  simp only [imageOpsExpand, Img.crop]
  rw [compositedC1_px]
  have hw : compositedC1.w = 300 := rfl
  have hh : compositedC1.h = 300 := rfl
  rw [hw, hh]
  split_ifs <;> first | rfl | (exfalso; omega)

/-- Witness for C1: the amended scenario theorem instantiated at a pixel
inside the square (25, 25 ↦ opaque red) and at a border pixel
(5, 5 ↦ fully transparent). -/
theorem crop_scenario_witness :
    pipelineC1.w = 140 ∧ pipelineC1.h = 140 ∧
    pipelineC1.px 25 25 = ⟨255, 0, 0, 255⟩ ∧
    pipelineC1.px 5 5 = ⟨0, 0, 0, 0⟩ :=
  ⟨(crop_scenario 25 25).1, (crop_scenario 25 25).2.1,
   (crop_scenario 25 25).2.2.trans (by decide),
   (crop_scenario 5 5).2.2.trans (by decide)⟩

/-- Counterexample for C1 as stated: the output of the scenario pipeline
is 140 pixels wide, not 120. -/
theorem crop_scenario_counterexample :
    pipelineC1.w = 140 ∧ (140 : Nat) ≠ 120 := by
  constructor
  · unfold pipelineC1 cropWithMargin
    simp only [compositedC1_bbox]
    decide
  · decide

end Rmbg
